import Mathlib

/-!
# Verification of the Pokémon picker's Selection Resolver

Shallow embedding of the pure data-reconciliation logic of
`PokemonPicker.tsx` (the single meaningful source file of the
repository): the species filter `filteredList`, the generation-aware
projections `typesForGeneration` and `pickSpriteForGeneration`, the
load-time sorting of the catalogs, the selection-repair step, and the
generation-resolution chain.

Modelling conventions:
* JSON records become structures; `T | null` / optional fields become
  `Option`.
* JS `Record<string, T>` objects become association lists
  `List (String × T)`; key lookup is first-match, `Object.values`
  order is the list order, `Object.keys(...).length` is the list
  length.
* A JS `Set<string>` built by iterated `add` is modelled as the
  accumulated `List String`, with membership via `List.contains`
  (only membership is ever consumed).
* `Array.prototype.sort` with a `localeCompare` comparator is
  modelled as a stable sort (`List.insertionSort`) by lexicographic
  string order `≤` (the names involved are ASCII slugs, where
  `localeCompare` agrees with code-point order).
* `Array.prototype.indexOf` is modelled as an `Int`-valued first
  index with `-1` for "absent".
-/

/-- `NamedAPIRef` from the source: `{ name: string; url: string }`. -/
structure NamedAPIRef where
  name : String
  url : String
deriving DecidableEq, Repr

/-- `PokemonType` from the source: `{ type: NamedAPIRef }`. -/
structure PokemonType where
  type : NamedAPIRef
deriving DecidableEq, Repr

/-- `PokemonAbility` from the source: `{ ability: NamedAPIRef }`. -/
structure PokemonAbility where
  ability : NamedAPIRef
deriving DecidableEq, Repr

/-- `PokemonStat` from the source: `{ base_stat: number; stat: NamedAPIRef }`. -/
structure PokemonStat where
  base_stat : Int
  stat : NamedAPIRef
deriving DecidableEq, Repr

/-- `PastTypes` from the source: `{ generation: NamedAPIRef; types: PokemonType[] }`. -/
structure PastTypes where
  generation : NamedAPIRef
  types : List PokemonType
deriving DecidableEq, Repr

/-- `SpriteLeaf` from the source: `{ front_default?: string | null }`
(the index-signature `unknown` fields are never read and are omitted). -/
structure SpriteLeaf where
  front_default : Option String
deriving DecidableEq, Repr

/-- `SpriteGenBlock = Record<string, SpriteLeaf>` (e.g. keys `red-blue`, `gold`). -/
abbrev SpriteGenBlock := List (String × SpriteLeaf)

/-- `SpriteVersions = Record<string, SpriteGenBlock>` (keys `generation-i`, ...). -/
abbrev SpriteVersions := List (String × SpriteGenBlock)

/-- The `sprites` field of `PokemonDetails`:
`{ front_default: string | null; versions?: SpriteVersions }`. -/
structure Sprites where
  front_default : Option String
  versions : Option SpriteVersions
deriving DecidableEq, Repr

/-- `PokemonDetails` from the source. -/
structure PokemonDetails where
  id : Int
  name : String
  height : Int
  weight : Int
  types : List PokemonType
  past_types : Option (List PastTypes)
  abilities : List PokemonAbility
  stats : List PokemonStat
  sprites : Sprites
deriving DecidableEq, Repr

/-- `VersionDetail` from the source: `{ version_group: NamedAPIRef | null }`. -/
structure VersionDetail where
  version_group : Option NamedAPIRef
deriving DecidableEq, Repr

/-- `VersionGroupDetail` from the source: `{ generation: NamedAPIRef | null }`. -/
structure VersionGroupDetail where
  generation : Option NamedAPIRef
deriving DecidableEq, Repr

/-- First-match lookup in a JS `Record` modelled as an association list. -/
def lookupRecord {α : Type} (m : List (String × α)) (k : String) : Option α :=
  (m.find? (fun e => e.1 == k)).map (·.2)

/-- `speciesByGen[gName] ?? []`: record lookup defaulting to the empty set. -/
def lookupSet (m : List (String × List String)) (k : String) : List String :=
  (lookupRecord m k).getD []

/-- `Array.prototype.indexOf`: index of the first occurrence, `-1` if absent. -/
def indexOfJS (l : List String) (x : String) : Int :=
  match l.findIdx? (fun y => y == x) with
  | some i => Int.ofNat i
  | none => -1

/-- Lexicographic code-point comparison of character lists, the order
`localeCompare` induces on the ASCII slugs at hand. -/
def charListLe : List Char → List Char → Bool
  | [], _ => true
  | _ :: _, [] => false
  | a :: as, b :: bs =>
    if a.toNat < b.toNat then true
    else if b.toNat < a.toNat then false
    else charListLe as bs

/-- String comparison used by every `localeCompare` sort call. -/
def strLe (a b : String) : Bool :=
  charListLe a.toList b.toList

/-- `.sort((a, b) => a.name.localeCompare(b.name))`: stable sort by name
ascending, applied to a copy of the list. -/
def sortByName (l : List NamedAPIRef) : List NamedAPIRef :=
  l.insertionSort (fun a b => strLe a.name b.name = true)

/-- `cap` from the source (line 53):
`(s) => (s ? s.charAt(0).toUpperCase() + s.slice(1) : s)`. -/
def cap (s : String) : String :=
  match s.toList with
  | [] => s
  | c :: rest => String.mk (c.toUpper :: rest)

/-- JS truthiness of an optional string (`if (sub.front_default)`):
false for `null`/absent and for the empty string. -/
def truthyStr (o : Option String) : Bool :=
  match o with
  | some s => s != ""
  | none => false

/-- `pickSpriteForGeneration` from the source (lines 56–72): if no sprite
block exists for `genName`, fall back to `sprites.front_default ?? null`;
otherwise return the first truthy `front_default` among the block's
variants (in `Object.values` order), else fall back. -/
def pickSpriteForGeneration (sprites : Option Sprites) (genName : String) :
    Option String :=
  match sprites with
  | none => none
  | some s =>
    match s.versions.bind (fun v => lookupRecord v genName) with
    | none => s.front_default
    | some genBlock =>
      match genBlock.find? (fun sub => truthyStr sub.2.front_default) with
      | some sub => sub.2.front_default
      | none => s.front_default

/-- `typesForGeneration` from the source (lines 75–83). -/
def typesForGeneration (pokemon : PokemonDetails) (genName : String) :
    List String :=
  if genName = "" then
    pokemon.types.map (fun t => cap t.type.name)
  else
    let past := pokemon.past_types.getD []
    let matched := past.find? (fun p => p.generation.name == genName)
    let arr := match matched with
      | some m => m.types
      | none => pokemon.types
    arr.map (fun t => cap t.type.name)

/-- The species-catalog load effect (lines 120–125): the fetched results
are sorted by name before being stored in `allList`. -/
def loadedSpeciesList (results : List NamedAPIRef) : List NamedAPIRef :=
  sortByName results

/-- The generations load (lines 152–156): the fetched generation list is
sorted by `localeCompare` on names before being stored in `generations`. -/
def loadedGenerations (results : List NamedAPIRef) : List NamedAPIRef :=
  sortByName results

/-- `ordered = generations.map((g) => g.name)` (line 211). -/
def orderedNames (generations : List NamedAPIRef) : List String :=
  generations.map (·.name)

/-- The `allowed` set of `filteredList` (lines 215–219): iterate `i` from
`0` to `idx` and add every name of `speciesByGen[ordered[i]] ?? []`. -/
def allowedSet (speciesByGen : List (String × List String))
    (ordered : List String) (idx : Nat) : List String :=
  (List.range (idx + 1)).foldl
    (fun acc i => acc ++ lookupSet speciesByGen (ordered.getD i "")) []

/-- `filteredList` from the source (lines 207–228): fail open to `allList`
when the generation name is empty, a catalog is empty, or the name is not
found; otherwise keep the species allowed up to the generation's position
and sort by name. (The selection-repair side effect on lines 222–226 does
not change the returned list; it is modelled by `repairedSelection`.) -/
def filteredList (allList generations : List NamedAPIRef)
    (speciesByGen : List (String × List String)) (selectedGenName : String) :
    List NamedAPIRef :=
  if selectedGenName = "" ∨ generations = [] ∨ speciesByGen = [] then
    allList
  else if indexOfJS (orderedNames generations) selectedGenName < 0 then
    allList
  else
    sortByName (allList.filter (fun p =>
      (allowedSet speciesByGen (orderedNames generations)
        (indexOfJS (orderedNames generations) selectedGenName).toNat).contains
        p.name))

/-- The selection-repair step of `filteredList` (lines 222–226), with the
queued `setSelectedName(arr[0].name)` modelled as the applied update: the
selected name after the microtask runs. -/
def repairedSelection (arr : List NamedAPIRef) (selectedName : String) :
    String :=
  match arr with
  | [] => selectedName
  | a :: _ =>
    if (arr.find? (fun x => x.name == selectedName)).isNone then a.name
    else selectedName

/-- The generation-resolution chain (lines 177–204) over already-delivered
fetch outcomes: a thrown fetch failure is `Except.error`; reaching
`setSelectedGenName` without error is `Except.ok`. A missing
`version_group` short-circuits to `ok ""`; a missing `generation` yields
`ok ""` via `?? ""`. -/
def resolveGeneration (fetchVersion : Except String VersionDetail)
    (fetchVersionGroup : String → Except String VersionGroupDetail) :
    Except String String :=
  match fetchVersion with
  | .error e => .error e
  | .ok version =>
    match version.version_group with
    | none => .ok ""
    | some vgRef =>
      match fetchVersionGroup vgRef.url with
      | .error e => .error e
      | .ok vg => .ok ((vg.generation.map (·.name)).getD "")

/-- Following the spec's words (§4.1 step 3): membership in the set union
of the generation-species index's entries for every generation at or
before position `idx` (inclusive) of the ordered generation-name list. -/
def cumulativeUnionMem (speciesByGen : List (String × List String))
    (ordered : List String) (idx : Nat) (name : String) : Bool :=
  (ordered.take (idx + 1)).any (fun g => (lookupSet speciesByGen g).contains name)

/-- Following the spec's words (§4.1 step 4): the species catalog
intersected with the cumulative union, sorted by name ascending. This is
the spec-side definition that the source's `filteredList` is compared
against. -/
def specFilteredSpecies (allList : List NamedAPIRef)
    (speciesByGen : List (String × List String)) (ordered : List String)
    (idx : Nat) : List NamedAPIRef :=
  sortByName
    (allList.filter (fun p => cumulativeUnionMem speciesByGen ordered idx p.name))

/-! ### Sample data used by witnesses -/

/-- A small species catalog. -/
def sampleCatalog : List NamedAPIRef :=
  [⟨"bulbasaur", "u"⟩, ⟨"chikorita", "u"⟩, ⟨"pikachu", "u"⟩]

/-- A two-generation catalog in release order. -/
def sampleGens : List NamedAPIRef :=
  [⟨"generation-i", "u"⟩, ⟨"generation-ii", "u"⟩]

/-- A generation-species index for `sampleGens`. -/
def sampleIndex : List (String × List String) :=
  [("generation-i", ["bulbasaur", "pikachu"]),
   ("generation-ii", ["chikorita"])]

/-- A sprites record whose generation block's only variant carries the
empty string as its image. -/
def sampleSprites : Sprites :=
  ⟨some "default.png",
   some [("generation-i", [("red-blue", ⟨some ""⟩)])]⟩

/-- A sprites record whose generation block's first variant has no image
and whose second variant has one. -/
def sampleSpritesTwoVariants : Sprites :=
  ⟨some "default.png",
   some [("generation-ii", [("gold", ⟨none⟩), ("silver", ⟨some "silver.png"⟩)])]⟩

/-- A species detail in the style of the spec's clefable example, with two
past-type entries so that an exact match can occur at a non-earliest
position. -/
def samplePokemon : PokemonDetails where
  id := 36
  name := "clefable"
  height := 13
  weight := 400
  types := [⟨⟨"fairy", "u"⟩⟩]
  past_types := some
    [⟨⟨"generation-i", "u"⟩, [⟨⟨"normal", "u"⟩⟩]⟩,
     ⟨⟨"generation-v", "u"⟩, [⟨⟨"steel", "u"⟩⟩]⟩]
  abilities := []
  stats := []
  sprites := ⟨some "default.png", none⟩

/-- A species detail whose optional `past_types` field is absent. -/
def samplePokemonNoPast : PokemonDetails where
  id := 4
  name := "charmander"
  height := 6
  weight := 85
  types := [⟨⟨"fire", "u"⟩⟩]
  past_types := none
  abilities := []
  stats := []
  sprites := ⟨none, none⟩

/-! ### C3, C10: `typesForGeneration` -/

/-- **C3.** `typesForGeneration` returns the (capitalized) current types
when the generation argument is empty; when `past_types` contains an
entry whose generation name equals the given name exactly — `find?`
returns that entry, wherever it sits in the list, not only when it is the
earliest — it returns exactly that entry's types; otherwise it falls back
to the current types. -/
theorem typesForGeneration_exact_match_spec (pokemon : PokemonDetails)
    (genName : String) :
    (genName = "" →
      typesForGeneration pokemon genName =
        pokemon.types.map (fun t => cap t.type.name))
    ∧ (genName ≠ "" → ∀ m,
        (pokemon.past_types.getD []).find?
            (fun p => p.generation.name == genName) = some m →
          typesForGeneration pokemon genName =
            m.types.map (fun t => cap t.type.name))
    ∧ (genName ≠ "" →
        (∀ p ∈ pokemon.past_types.getD [], p.generation.name ≠ genName) →
          typesForGeneration pokemon genName =
            pokemon.types.map (fun t => cap t.type.name)) := by
  refine ⟨fun h => ?_, fun h m hm => ?_, fun h hnone => ?_⟩
  · simp [typesForGeneration, h]
  · simp only [typesForGeneration, if_neg h, hm]
  · have : (pokemon.past_types.getD []).find?
        (fun p => p.generation.name == genName) = none := by
      rw [List.find?_eq_none]
      intro p hp
      simpa using hnone p hp
    simp only [typesForGeneration, if_neg h, this]

/-- Witness for C3 at concrete input: the exact-generation entry is the
second (non-earliest) past entry, and its types are returned. -/
theorem typesForGeneration_exact_match_spec_witness :
    typesForGeneration samplePokemon "generation-v" = ["Steel"] := by
  have h := (typesForGeneration_exact_match_spec samplePokemon
      "generation-v").2.1 (by decide)
      ⟨⟨"generation-v", "u"⟩, [⟨⟨"steel", "u"⟩⟩]⟩ (by rfl)
  rw [h]
  rfl

/-- **C10.** `typesForGeneration` is total: with `past_types` absent and a
non-empty generation name it returns the current types, each type name's
first letter capitalized by `cap`. -/
theorem typesForGeneration_total_no_past (pokemon : PokemonDetails)
    (genName : String) (hpast : pokemon.past_types = none)
    (hgen : genName ≠ "") :
    typesForGeneration pokemon genName =
      pokemon.types.map (fun t => cap t.type.name) := by
  unfold typesForGeneration
  rw [if_neg hgen, hpast]
  rfl

/-- Witness for C10 at concrete input. -/
theorem typesForGeneration_total_no_past_witness :
    typesForGeneration samplePokemonNoPast "generation-i" = ["Fire"] := by
  rw [typesForGeneration_total_no_past samplePokemonNoPast "generation-i"
    rfl (by decide)]
  rfl

/-! ### C7: selection repair -/

/-- **C7.** After the repair step on a non-empty filtered list, the chosen
name is a member of the list's names; when the list does not contain the
current choice, the first element's name becomes the new choice; when it
does, the choice is unchanged. -/
theorem repairedSelection_invariant (a : NamedAPIRef)
    (rest : List NamedAPIRef) (selectedName : String) :
    repairedSelection (a :: rest) selectedName ∈
      (a :: rest).map NamedAPIRef.name
    ∧ ((¬ ∃ x ∈ a :: rest, x.name = selectedName) →
        repairedSelection (a :: rest) selectedName = a.name)
    ∧ ((∃ x ∈ a :: rest, x.name = selectedName) →
        repairedSelection (a :: rest) selectedName = selectedName) := by
  cases hf : (a :: rest).find? (fun x => x.name == selectedName) with
  | none =>
    have hno : ∀ x ∈ a :: rest, x.name ≠ selectedName := by
      intro x hx
      have := List.find?_eq_none.mp hf x hx
      simpa using this
    refine ⟨?_, fun _ => ?_, fun hex => ?_⟩
    · simp [repairedSelection, hf]
    · simp [repairedSelection, hf]
    · obtain ⟨x, hx, hxe⟩ := hex
      exact absurd hxe (hno x hx)
  | some x =>
    have hmem : x ∈ a :: rest := List.mem_of_find?_eq_some hf
    have hname : x.name = selectedName := by
      have := List.find?_some hf
      simpa using this
    refine ⟨?_, fun hnone => ?_, fun _ => ?_⟩
    · have : repairedSelection (a :: rest) selectedName = selectedName := by
        simp [repairedSelection, hf]
      rw [this, ← hname]
      exact List.mem_map_of_mem NamedAPIRef.name hmem
    · exact absurd ⟨x, hmem, hname⟩ hnone
    · simp [repairedSelection, hf]

/-- Witness for C7 at concrete input: the list does not contain the
current choice, so the first element's name is chosen. -/
theorem repairedSelection_invariant_witness :
    repairedSelection [⟨"bulbasaur", "u"⟩, ⟨"pikachu", "u"⟩] "mewtwo"
      = "bulbasaur" := by
  exact (repairedSelection_invariant ⟨"bulbasaur", "u"⟩ [⟨"pikachu", "u"⟩]
    "mewtwo").2.1 (by decide)

/-! ### C8: generation resolution on data absence -/

/-- **C8.** Generation resolution yields the empty generation name as a
normal (`Except.ok`) result — never an error — both when the version
detail has no version-group and when the version-group detail has no
generation. -/
theorem resolveGeneration_data_absence
    (fetchVersion : Except String VersionDetail)
    (fetchVersionGroup : String → Except String VersionGroupDetail) :
    (∀ v, fetchVersion = .ok v → v.version_group = none →
      resolveGeneration fetchVersion fetchVersionGroup = .ok "")
    ∧ (∀ v ref vg, fetchVersion = .ok v → v.version_group = some ref →
        fetchVersionGroup ref.url = .ok vg → vg.generation = none →
          resolveGeneration fetchVersion fetchVersionGroup = .ok "") := by
  constructor
  · intro v hv hvg
    simp [resolveGeneration, hv, hvg]
  · intro v ref vg hv hvg hfg hgen
    simp [resolveGeneration, hv, hvg, hfg, hgen]

/-- Witness for C8 at concrete input (a version with no version-group). -/
theorem resolveGeneration_data_absence_witness :
    resolveGeneration (.ok ⟨none⟩) (fun _ => .ok ⟨none⟩) = .ok "" := by
  exact (resolveGeneration_data_absence (.ok ⟨none⟩)
    (fun _ => .ok ⟨none⟩)).1 ⟨none⟩ rfl rfl

/-! ### Bridging lemmas for the species filter -/

/-- Membership in a fold that appends chunks: the accumulated set contains
exactly the initial elements and the elements of every chunk. -/
theorem mem_foldl_append (f : Nat → List String) (name : String) :
    ∀ (l : List Nat) (init : List String),
      (name ∈ l.foldl (fun acc i => acc ++ f i) init ↔
        name ∈ init ∨ ∃ i ∈ l, name ∈ f i)
  | [], init => by simp
  | x :: xs, init => by
    rw [List.foldl_cons, mem_foldl_append f name xs (init ++ f x)]
    simp only [List.mem_append, List.mem_cons]
    constructor
    · rintro ((h | h) | ⟨i, hi, h⟩)
      · exact Or.inl h
      · exact Or.inr ⟨x, Or.inl rfl, h⟩
      · exact Or.inr ⟨i, Or.inr hi, h⟩
    · rintro (h | ⟨i, hi | hi, h⟩)
      · exact Or.inl (Or.inl h)
      · exact Or.inl (Or.inr (hi ▸ h))
      · exact Or.inr ⟨i, hi, h⟩

/-- `List.contains` on strings decides membership. -/
theorem contains_eq_true_iff_mem (l : List String) (name : String) :
    l.contains name = true ↔ name ∈ l := by
  simp [List.contains]

/-- The `allowed` set contains a name iff some generation at or before
`idx` has it in its index entry. -/
theorem mem_allowedSet_iff (speciesByGen : List (String × List String))
    (ordered : List String) (idx : Nat) (name : String) :
    name ∈ allowedSet speciesByGen ordered idx ↔
      ∃ i, i ≤ idx ∧ name ∈ lookupSet speciesByGen (ordered.getD i "") := by
  unfold allowedSet
  rw [mem_foldl_append]
  simp [List.mem_range, Nat.lt_succ_iff]

/-- The spec's cumulative union contains a name iff some generation at or
before `idx` has it in its index entry. -/
theorem cumulativeUnionMem_iff (speciesByGen : List (String × List String))
    (ordered : List String) (idx : Nat) (name : String)
    (h : idx < ordered.length) :
    cumulativeUnionMem speciesByGen ordered idx name = true ↔
      ∃ i, i ≤ idx ∧ name ∈ lookupSet speciesByGen (ordered.getD i "") := by
  unfold cumulativeUnionMem
  rw [List.any_eq_true]
  constructor
  · rintro ⟨g, hg, hcont⟩
    rw [List.mem_take_iff_getElem] at hg
    obtain ⟨i, hi, rfl⟩ := hg
    refine ⟨i, by omega, ?_⟩
    rw [List.getD_eq_getElem _ _ (by omega)]
    exact (contains_eq_true_iff_mem _ _).mp hcont
  · rintro ⟨i, hi, hmem⟩
    refine ⟨ordered.getD i "", ?_, ?_⟩
    · rw [List.getD_eq_getElem _ _ (by omega), List.mem_take_iff_getElem]
      exact ⟨i, by omega, rfl⟩
    · exact (contains_eq_true_iff_mem _ _).mpr hmem

/-- Pointwise agreement of the source's `allowed` set with the spec's
cumulative union. -/
theorem allowedSet_contains_eq (speciesByGen : List (String × List String))
    (ordered : List String) (idx : Nat) (name : String)
    (h : idx < ordered.length) :
    (allowedSet speciesByGen ordered idx).contains name =
      cumulativeUnionMem speciesByGen ordered idx name := by
  rw [Bool.eq_iff_iff, contains_eq_true_iff_mem, mem_allowedSet_iff,
    cumulativeUnionMem_iff _ _ _ _ h]

/-- A non-negative `indexOf` result comes from a successful `findIdx?`. -/
theorem findIdx?_of_indexOfJS (l : List String) (x : String) (i : Nat)
    (h : indexOfJS l x = (i : Int)) :
    l.findIdx? (fun y => y == x) = some i := by
  cases hf : l.findIdx? (fun y => y == x) with
  | none =>
    exfalso
    have hv : indexOfJS l x = -1 := by
      unfold indexOfJS
      rw [hf]
    rw [hv] at h
    omega
  | some j =>
    have hv : indexOfJS l x = (j : Int) := by
      unfold indexOfJS
      rw [hf]
      rfl
    rw [hv] at h
    have hji : j = i := by omega
    rw [hji]

/-- A found generation's index is within the ordered list. -/
theorem indexOfJS_lt_length (l : List String) (x : String) (i : Nat)
    (h : indexOfJS l x = (i : Int)) : i < l.length := by
  have hfind := findIdx?_of_indexOfJS l x i h
  obtain ⟨hlt, -, -⟩ := List.findIdx?_eq_some_iff_getElem.mp hfind
  exact hlt

/-- `filteredList` fail-open branch: any tripped emptiness guard returns
the stored catalog unchanged. -/
theorem filteredList_guard (allList generations : List NamedAPIRef)
    (speciesByGen : List (String × List String)) (selectedGenName : String)
    (h : selectedGenName = "" ∨ generations = [] ∨ speciesByGen = []) :
    filteredList allList generations speciesByGen selectedGenName = allList := by
  unfold filteredList
  rw [if_pos h]

/-- `filteredList` fail-open branch: an unlocatable generation name
returns the stored catalog unchanged. -/
theorem filteredList_notFound (allList generations : List NamedAPIRef)
    (speciesByGen : List (String × List String)) (selectedGenName : String)
    (h : indexOfJS (orderedNames generations) selectedGenName = -1) :
    filteredList allList generations speciesByGen selectedGenName = allList := by
  unfold filteredList
  by_cases hc : selectedGenName = "" ∨ generations = [] ∨ speciesByGen = []
  · rw [if_pos hc]
  · rw [if_neg hc, h, if_pos (by decide)]

/-- `filteredList` main branch, in terms of the `allowed` set. -/
theorem filteredList_found (allList generations : List NamedAPIRef)
    (speciesByGen : List (String × List String)) (selectedGenName : String)
    (idx : Nat)
    (hidx : indexOfJS (orderedNames generations) selectedGenName = (idx : Int))
    (hname : selectedGenName ≠ "") (hindex : speciesByGen ≠ []) :
    filteredList allList generations speciesByGen selectedGenName =
      sortByName (allList.filter (fun p =>
        (allowedSet speciesByGen (orderedNames generations) idx).contains
          p.name)) := by
  have hlt := indexOfJS_lt_length _ _ _ hidx
  have hgens : generations ≠ [] := by
    intro hnil
    rw [hnil] at hlt
    simp [orderedNames] at hlt
  unfold filteredList
  rw [if_neg (by push_neg; exact ⟨hname, hgens, hindex⟩), hidx,
    if_neg (by omega)]
  rfl

/-! ### C1: the species filter against the spec's formula -/

/-- **C1 counterexample.** With the resolved generation name present at
position 0 of the generation list but an *empty* generation-species
index, the code fails open to the full catalog, while the spec's formula
(catalog ∩ cumulative union, sorted) yields the empty list. -/
theorem filteredList_spec_counterexample :
    indexOfJS (orderedNames [⟨"generation-i", "u"⟩]) "generation-i" = (0 : Int)
    ∧ filteredList [⟨"bulbasaur", "u"⟩] [⟨"generation-i", "u"⟩] []
        "generation-i"
      ≠ specFilteredSpecies [⟨"bulbasaur", "u"⟩] []
          (orderedNames [⟨"generation-i", "u"⟩]) 0 := by
  constructor
  · decide
  · decide

/-- **C1 (amended).** Provided the resolved generation name is non-empty
and the generation-species index is non-empty, the filtered species list
equals the species catalog intersected with the union of the index's
entries for every generation at or before the resolved name's position
(inclusive), sorted by name ascending. -/
theorem filteredList_eq_specFilteredSpecies (allList generations : List NamedAPIRef)
    (speciesByGen : List (String × List String)) (selectedGenName : String)
    (idx : Nat)
    (hname : selectedGenName ≠ "") (hindex : speciesByGen ≠ [])
    (hidx : indexOfJS (orderedNames generations) selectedGenName = (idx : Int)) :
    filteredList allList generations speciesByGen selectedGenName =
      specFilteredSpecies allList speciesByGen (orderedNames generations)
        idx := by
  have hlt := indexOfJS_lt_length _ _ _ hidx
  rw [filteredList_found _ _ _ _ _ hidx hname hindex]
  unfold specFilteredSpecies
  congr 1
  exact List.filter_congr fun x _ => allowedSet_contains_eq _ _ _ _ hlt

/-- Witness for C1 (amended) at concrete input. -/
theorem filteredList_eq_specFilteredSpecies_witness :
    filteredList sampleCatalog sampleGens sampleIndex "generation-i" =
      specFilteredSpecies sampleCatalog sampleIndex
        (orderedNames sampleGens) 0 := by
  exact filteredList_eq_specFilteredSpecies sampleCatalog sampleGens
    sampleIndex "generation-i" 0 (by decide) (by decide) (by decide)

/-! ### C2: fail-open returns the full name-sorted catalog -/

/-- **C2.** When the resolved generation name is empty, the generation
catalog is empty, the index is empty, or the name is not found in the
generation catalog's order, the filter returns the stored species
catalog, i.e. the full name-sorted load result. -/
theorem filteredList_fail_open (results generations : List NamedAPIRef)
    (speciesByGen : List (String × List String)) (selectedGenName : String)
    (h : selectedGenName = "" ∨ generations = [] ∨ speciesByGen = []
        ∨ indexOfJS (orderedNames generations) selectedGenName = -1) :
    filteredList (loadedSpeciesList results) generations speciesByGen
        selectedGenName
      = sortByName results := by
  by_cases hc : selectedGenName = "" ∨ generations = [] ∨ speciesByGen = []
  · rw [filteredList_guard _ _ _ _ hc]
    rfl
  · rcases h with h1 | h2 | h3 | h4
    · exact absurd (Or.inl h1) hc
    · exact absurd (Or.inr (Or.inl h2)) hc
    · exact absurd (Or.inr (Or.inr h3)) hc
    · rw [filteredList_notFound _ _ _ _ h4]
      rfl

/-- Witness for C2 at concrete input: a generation name missing from the
catalog order makes the filter return the full, name-sorted catalog. -/
theorem filteredList_fail_open_witness :
    filteredList (loadedSpeciesList [⟨"pikachu", "u"⟩, ⟨"bulbasaur", "u"⟩])
        sampleGens sampleIndex "generation-iii"
      = sortByName [⟨"pikachu", "u"⟩, ⟨"bulbasaur", "u"⟩] := by
  exact filteredList_fail_open [⟨"pikachu", "u"⟩, ⟨"bulbasaur", "u"⟩]
    sampleGens sampleIndex "generation-iii"
    (Or.inr (Or.inr (Or.inr (by decide))))

/-! ### C6: cumulative monotonicity of the filter -/

/-- Every element of a filtered list comes from the stored catalog. -/
theorem mem_allList_of_mem_filteredList (allList generations : List NamedAPIRef)
    (speciesByGen : List (String × List String)) (selectedGenName : String)
    (x : NamedAPIRef)
    (hx : x ∈ filteredList allList generations speciesByGen selectedGenName) :
    x ∈ allList := by
  unfold filteredList at hx
  split at hx
  · exact hx
  · split at hx
    · exact hx
    · unfold sortByName at hx
      rw [List.mem_insertionSort] at hx
      exact (List.mem_filter.mp hx).1

/-- **C6 counterexample.** In a generation list containing an entry whose
name is the empty string, that entry sits before `generation-i`, yet the
list filtered for it (the code fails open to the whole catalog) is not a
subset of the list filtered for `generation-i`. -/
theorem filteredList_monotone_counterexample :
    indexOfJS (orderedNames [⟨"", "u"⟩, ⟨"generation-i", "u"⟩]) "" = (0 : Int)
    ∧ indexOfJS (orderedNames [⟨"", "u"⟩, ⟨"generation-i", "u"⟩])
        "generation-i" = (1 : Int)
    ∧ (⟨"bulbasaur", "u"⟩ : NamedAPIRef) ∈
        filteredList [⟨"bulbasaur", "u"⟩] [⟨"", "u"⟩, ⟨"generation-i", "u"⟩]
          [("generation-i", [])] ""
    ∧ (⟨"bulbasaur", "u"⟩ : NamedAPIRef) ∉
        filteredList [⟨"bulbasaur", "u"⟩] [⟨"", "u"⟩, ⟨"generation-i", "u"⟩]
          [("generation-i", [])] "generation-i" := by
  refine ⟨by decide, by decide, by decide, by decide⟩

/-- **C6 (amended).** For a fixed catalog, generation list and index, and
generations `g1` before `g2` in the list's order with `g1` non-empty, the
species list filtered for `g1` is a subset of the one filtered for
`g2`. -/
theorem filteredList_monotone (allList generations : List NamedAPIRef)
    (speciesByGen : List (String × List String)) (g1 g2 : String)
    (i1 i2 : Nat) (hg1 : g1 ≠ "")
    (h1 : indexOfJS (orderedNames generations) g1 = (i1 : Int))
    (h2 : indexOfJS (orderedNames generations) g2 = (i2 : Int))
    (hle : i1 ≤ i2) :
    ∀ x ∈ filteredList allList generations speciesByGen g1,
      x ∈ filteredList allList generations speciesByGen g2 := by
  intro x hx
  by_cases hm : speciesByGen = []
  · rw [filteredList_guard _ _ _ _ (Or.inr (Or.inr hm))] at hx
    rw [filteredList_guard _ _ _ _ (Or.inr (Or.inr hm))]
    exact hx
  by_cases hg2 : g2 = ""
  · rw [filteredList_guard _ _ _ _ (Or.inl hg2)]
    exact mem_allList_of_mem_filteredList _ _ _ _ _ hx
  rw [filteredList_found _ _ _ _ _ h1 hg1 hm] at hx
  rw [filteredList_found _ _ _ _ _ h2 hg2 hm]
  unfold sortByName at hx ⊢
  rw [List.mem_insertionSort] at hx ⊢
  rw [List.mem_filter] at hx ⊢
  refine ⟨hx.1, ?_⟩
  have hc1 := (contains_eq_true_iff_mem _ _).mp hx.2
  rw [mem_allowedSet_iff] at hc1
  obtain ⟨i, hi, hmem⟩ := hc1
  apply (contains_eq_true_iff_mem _ _).mpr
  rw [mem_allowedSet_iff]
  exact ⟨i, le_trans hi hle, hmem⟩

/-- Witness for C6 (amended) at concrete input: a species allowed for
generation i stays allowed for generation ii. -/
theorem filteredList_monotone_witness :
    (⟨"bulbasaur", "u"⟩ : NamedAPIRef) ∈
      filteredList sampleCatalog sampleGens sampleIndex "generation-ii" := by
  exact filteredList_monotone sampleCatalog sampleGens sampleIndex
    "generation-i" "generation-ii" 0 1 (by decide) (by decide) (by decide)
    (by decide) ⟨"bulbasaur", "u"⟩ (by decide)

/-! ### C4: sprite selection -/

/-- `find?` returns the element at the first position where the predicate
holds. -/
theorem find?_first_true {α : Type} (p : α → Bool) :
    ∀ (l : List α) (j : Nat) (hj : j < l.length),
      p (l.get ⟨j, hj⟩) = true →
      (∀ x ∈ l.take j, p x = false) →
      l.find? p = some (l.get ⟨j, hj⟩)
  | [], j, hj, _, _ => absurd hj (by simp)
  | a :: t, 0, _, hp, _ => List.find?_cons_of_pos t hp
  | a :: t, j + 1, hj, hp, hmin => by
    have ha : p a = false := hmin a (by simp)
    rw [List.find?_cons_of_neg t (by simp [ha])]
    exact find?_first_true p t j (Nat.lt_of_succ_lt_succ hj) hp
      (fun x hx => hmin x (by simp [hx]))

/-- **C4 counterexample.** A variant whose image is the non-absent empty
string: the generation block exists and its first variant's image is
present (`isSome`), yet the function skips it (JS truthiness treats `""`
as false) and falls back to the current default sprite. -/
theorem pickSprite_counterexample :
    sampleSprites.versions.bind (fun v => lookupRecord v "generation-i")
      = some [("red-blue", (⟨some ""⟩ : SpriteLeaf))]
    ∧ ((⟨some ""⟩ : SpriteLeaf).front_default).isSome = true
    ∧ pickSpriteForGeneration (some sampleSprites) "generation-i" ≠ some "" := by
  refine ⟨by decide, by decide, by decide⟩

/-- **C4 (amended).** `pickSpriteForGeneration` returns the current
default sprite (possibly absent) when no sprite block exists for the
generation name; otherwise it scans the block's variants in natural
order and returns the image of the first variant whose image is present
*and non-empty*, falling back to the current default sprite when no
variant has one. -/
theorem pickSprite_spec (s : Sprites) (genName : String) :
    (s.versions.bind (fun v => lookupRecord v genName) = none →
      pickSpriteForGeneration (some s) genName = s.front_default)
    ∧ (∀ block : SpriteGenBlock,
        s.versions.bind (fun v => lookupRecord v genName) = some block →
        (∀ j (hj : j < block.length),
          truthyStr (block.get ⟨j, hj⟩).2.front_default = true →
          (∀ leaf ∈ block.take j,
            truthyStr leaf.2.front_default = false) →
          pickSpriteForGeneration (some s) genName =
            (block.get ⟨j, hj⟩).2.front_default)
        ∧ ((∀ leaf ∈ block, truthyStr leaf.2.front_default = false) →
          pickSpriteForGeneration (some s) genName = s.front_default)) := by
  refine ⟨fun hnone => ?_, fun block hblock => ⟨fun j hj hp hmin => ?_, fun hall => ?_⟩⟩
  · simp only [pickSpriteForGeneration, hnone]
  · have hfind := find?_first_true (fun sub => truthyStr sub.2.front_default)
      block j hj hp hmin
    simp only [pickSpriteForGeneration, hblock, hfind]
  · have hfind : block.find? (fun sub => truthyStr sub.2.front_default)
        = none := by
      rw [List.find?_eq_none]
      intro x hx
      simp [hall x hx]
    simp only [pickSpriteForGeneration, hblock, hfind]

/-- Witness for C4 (amended) at concrete input: the first variant has no
image, so the second variant's image is returned. -/
theorem pickSprite_spec_witness :
    pickSpriteForGeneration (some sampleSpritesTwoVariants) "generation-ii"
      = some "silver.png" := by
  have h := ((pickSprite_spec sampleSpritesTwoVariants "generation-ii").2
    [("gold", ⟨none⟩), ("silver", ⟨some "silver.png"⟩)] rfl).1 1
    (by decide) (by decide) (by decide)
  exact h.trans rfl

/-! ### C5: generation ordering is re-derived, not preserved -/

/-- **C5.** Evaluating the generations load at the failing input: the
upstream catalog's release order `[generation-viii, generation-ix]` is
re-sorted lexicographically to `[generation-ix, generation-viii]`, so the
ordered list used by the species filter does *not* preserve the upstream
order and *is* re-derived by the code. -/
theorem loadedGenerations_reorders :
    loadedGenerations [⟨"generation-viii", "u"⟩, ⟨"generation-ix", "u"⟩]
      = [⟨"generation-ix", "u"⟩, ⟨"generation-viii", "u"⟩]
    ∧ loadedGenerations [⟨"generation-viii", "u"⟩, ⟨"generation-ix", "u"⟩]
      ≠ [⟨"generation-viii", "u"⟩, ⟨"generation-ix", "u"⟩] := by
  refine ⟨by decide, by decide⟩
